import Mathlib

/-!
# Verification of the fillpdf library against its specification

Shallow embedding of the two source files of the `fillpdf` Go package
(`fillpdf.go` — the "legacy" variant that stages the FDF payload in a
temporary directory — and the unnamed second source file, whose encoder
returns the FDF payload as a byte slice and whose fill operations pipe it
through standard input).

The embedding models:
* Go `float64` values and `strconv.FormatFloat(v, 'f', -1, 64)`;
* the `Form` map and `createFdfFile` FDF encoder of both files;
* the `Fill` / `FillFromReader` orchestration as functions of an abstract
  operating-system environment, recording filesystem/process effects.
-/

namespace FillPdf

/-! ## Exact rational helpers

Unreduced fractions over `ℤ` (denominator positive by construction at every
use site; we never normalize, so all operations evaluate by plain integer
arithmetic). -/

/-- An unreduced fraction `num / den`, `den > 0` at every use site. -/
structure Q where
  num : ℤ
  den : ℤ
deriving Repr, DecidableEq

/-- `a ≤ b` for fractions with positive denominators. -/
def qLe (a b : Q) : Bool := decide (a.num * b.den ≤ b.num * a.den)

/-- `a < b` for fractions with positive denominators. -/
def qLt (a b : Q) : Bool := decide (a.num * b.den < b.num * a.den)

/-- Difference of fractions. -/
def qSub (a b : Q) : Q := ⟨a.num * b.den - b.num * a.den, a.den * b.den⟩

/-- Sum of fractions. -/
def qAdd (a b : Q) : Q := ⟨a.num * b.den + b.num * a.den, a.den * b.den⟩

/-- Quotient of fractions (used only with `0 < b.num`). -/
def qDiv (a b : Q) : Q := ⟨a.num * b.den, a.den * b.num⟩

/-- `|a - b|`. -/
def qAbsSub (a b : Q) : Q :=
  let d := qSub a b
  ⟨(d.num.natAbs : ℤ), d.den⟩

/-- Floor of a fraction. -/
def qFloor (a : Q) : ℤ := Int.fdiv a.num a.den

/-- Ceiling of a fraction. -/
def qCeil (a : Q) : ℤ := -(qFloor ⟨-a.num, a.den⟩)

/-- Nearest integer, ties to even. -/
def qRoundHE (a : Q) : ℤ :=
  let n := qFloor a
  let r := qSub a ⟨n, 1⟩
  if qLt r ⟨1, 2⟩ then n
  else if qLt ⟨1, 2⟩ r then n + 1
  else if n % 2 = 0 then n else n + 1

/-- `2 ^ e` as a fraction, for an integer exponent. -/
def pow2Z (e : ℤ) : Q :=
  if 0 ≤ e then ⟨2 ^ e.toNat, 1⟩ else ⟨1, 2 ^ (-e).toNat⟩

/-- `10 ^ e` as a fraction, for an integer exponent. -/
def pow10Z (e : ℤ) : Q :=
  if 0 ≤ e then ⟨10 ^ e.toNat, 1⟩ else ⟨1, 10 ^ (-e).toNat⟩

/-! ## Binary64 values

A finite Go `float64` is `(-1)^neg * m * 2^e` with `m < 2^53` and
`-1074 ≤ e ≤ 971` (any finite double has such a representation; it need not
be normalized here, `formatFloat` canonicalizes). -/

/-- A finite IEEE-754 binary64 value, as carried in a Go `float64`. -/
structure F64 where
  neg : Bool
  m : ℕ
  e : ℤ
deriving DecidableEq, Repr

/-- Well-formedness: the pair denotes a finite binary64 value. -/
def F64.Wf (f : F64) : Prop := f.m < 2 ^ 53 ∧ -1074 ≤ f.e ∧ f.e ≤ 971

instance (f : F64) : Decidable f.Wf := by unfold F64.Wf; infer_instance

/-- Rational value of a (nonnegative) mantissa/exponent pair. -/
def qval (m : ℕ) (e : ℤ) : Q :=
  let p := pow2Z e
  ⟨(m : ℤ) * p.num, p.den⟩

/-- Canonicalization loop: scale the mantissa up into `[2^52, 2^53)`
(stopping at the subnormal exponent floor `-1074`). -/
def normUpAux : ℕ → ℕ → ℤ → ℕ × ℤ
  | 0, m, e => (m, e)
  | fuel+1, m, e =>
    if m < 2 ^ 52 ∧ -1074 < e then normUpAux fuel (2 * m) (e - 1) else (m, e)

/-- Canonical binary64 representation of a well-formed pair. -/
def normF64 (m : ℕ) (e : ℤ) : ℕ × ℤ := normUpAux 2200 m e

/-! ## Shortest round-trip decimal (model of `strconv.FormatFloat(v,'f',-1,64)`)

Per the Go standard-library documentation, precision `-1` "uses the smallest
number of digits necessary to represent the value uniquely", i.e. the decimal
with the fewest significant digits that still parses (rounds, nearest/even)
back to exactly the same binary64 value; format `'f'` renders it without an
exponent.  We model this with exact rational arithmetic: a decimal `d` parses
back to `v` iff `d` lies in the rounding interval of `v` (bounded by the
midpoints to the neighbouring binary64 values, inclusive iff the mantissa of
`v` is even). -/

/-- A rounding interval: the set of rationals that round to a given
binary64 value under round-nearest-ties-even. -/
structure RInterval where
  lo : Q
  hi : Q
  closed : Bool
deriving Repr

/-- The rounding interval of the canonical pair `(m, e)`, `m ≠ 0`. -/
def roundInterval (m : ℕ) (e : ℤ) : RInterval :=
  let v := qval m e
  let up := pow2Z (e - 1)
  let down := if m = 2 ^ 52 ∧ -1074 < e then pow2Z (e - 2) else pow2Z (e - 1)
  ⟨qSub v down, qAdd v up, m % 2 = 0⟩

/-- Decimal decade search, upwards: least `t ≥ t₀` with `v < 10^t`. -/
def decExpUp : ℕ → Q → ℤ → ℤ
  | 0, _, t => t
  | fuel+1, v, t => if qLt v (pow10Z t) then t else decExpUp fuel v (t + 1)

/-- Decimal decade search, downwards: greatest `t ≤ t₀` with `10^(t-1) ≤ v`. -/
def decExpDown : ℕ → Q → ℤ → ℤ
  | 0, _, t => t
  | fuel+1, v, t => if qLe (pow10Z (t - 1)) v then t else decExpDown fuel v (t - 1)

/-- The decade `t` of a positive fraction: `10^(t-1) ≤ v < 10^t`. -/
def decExpQ (v : Q) : ℤ :=
  if qLe ⟨1, 1⟩ v then decExpUp 400 v 1 else decExpDown 400 v 0

/-- Least lattice index with `k` significant digits not below the rounding
interval: the lattice points `D * 10^q` inside the interval are exactly the
integers `D` in `[latticeLo, latticeHi]`. -/
def latticeLo (k : ℕ) (q : ℤ) (I : RInterval) : ℤ :=
  max (if I.closed then qCeil (qDiv I.lo (pow10Z q))
       else qFloor (qDiv I.lo (pow10Z q)) + 1)
    ((10 : ℤ) ^ (k - 1))

/-- Greatest lattice index with `k` significant digits not above the
rounding interval. -/
def latticeHi (k : ℕ) (q : ℤ) (I : RInterval) : ℤ :=
  min (if I.closed then qFloor (qDiv I.hi (pow10Z q))
       else qCeil (qDiv I.hi (pow10Z q)) - 1)
    ((10 : ℤ) ^ k - 1)

/-- Best `k`-significant-digit decimal `D * 10^q` (for this fixed `q`)
inside the rounding interval, if any: among the lattice points inside the
interval with exactly `k` digits, the one nearest to `v`. -/
def bestInLattice (k : ℕ) (q : ℤ) (I : RInterval) (v : Q) : Option (ℕ × ℤ) :=
  if latticeLo k q I ≤ latticeHi k q I then
    some ((max (latticeLo k q I)
      (min (qRoundHE (qDiv v (pow10Z q))) (latticeHi k q I))).toNat, q)
  else none

/-- Value of a candidate decimal `(D, q)` as a fraction. -/
def candVal (c : ℕ × ℤ) : Q :=
  let p := pow10Z c.2
  ⟨(c.1 : ℤ) * p.num, p.den⟩

/-- Of two candidate decimals, keep the one closer to `v`
(first wins ties). -/
def betterCand (v : Q) : Option (ℕ × ℤ) → Option (ℕ × ℤ) → Option (ℕ × ℤ)
  | none, o => o
  | some c, none => some c
  | some c₁, some c₂ =>
    if qLt (qAbsSub (candVal c₂) v) (qAbsSub (candVal c₁) v) then some c₂
    else some c₁

/-- Best in-interval decimal with exactly `k` significant digits, if any
(a k-digit decimal inside the narrow rounding interval can only live in
one of three adjacent lattices around the decade of `v`). -/
def bestKDigit (k : ℕ) (I : RInterval) (v : Q) : Option (ℕ × ℤ) :=
  let t := decExpQ v
  betterCand v
    (betterCand v (bestInLattice k (t - k) I v) (bestInLattice k (t - k - 1) I v))
    (bestInLattice k (t - k + 1) I v)

/-- Exact decimal expansion of `m * 2^e` as a pair `(D, q)` with value
`D * 10^q` (fallback; it always round-trips, being the value itself). -/
def exactDec (m : ℕ) (e : ℤ) : ℕ × ℤ :=
  if 0 ≤ e then (m * 2 ^ e.toNat, 0) else (m * 5 ^ (-e).toNat, e)

/-- The shortest decimal that rounds back to the canonical binary64
`(m, e)`: try 1, 2, …, 17 significant digits in order and keep the first
success, so the digit count is minimal. -/
def shortestDec (m : ℕ) (e : ℤ) : ℕ × ℤ :=
  match (List.range 17).findSome?
      (fun i => bestKDigit (i + 1) (roundInterval m e) (qval m e)) with
  | some c => c
  | none => exactDec m e

/-- Strip trailing decimal zeros off `(d, q)`, keeping the value `d * 10^q`. -/
def stripTZ : ℕ → ℕ → ℤ → ℕ × ℤ
  | 0, d, q => (d, q)
  | fuel+1, d, q => if d ≠ 0 ∧ d % 10 = 0 then stripTZ fuel (d / 10) (q + 1) else (d, q)

/-- The character of a decimal digit. -/
def digitChar : ℕ → Char
  | 0 => '0' | 1 => '1' | 2 => '2' | 3 => '3' | 4 => '4'
  | 5 => '5' | 6 => '6' | 7 => '7' | 8 => '8' | _ => '9'

/-- Little-endian base-10 digits of `n` (empty for 0). -/
def natDigsLE : ℕ → ℕ → List ℕ
  | 0, _ => []
  | fuel+1, n => if n = 0 then [] else n % 10 :: natDigsLE fuel (n / 10)

/-- Decimal digit characters of `n`, most significant first. -/
def natChars (n : ℕ) : List Char :=
  if n = 0 then ['0'] else ((natDigsLE 1100 n).map digitChar).reverse

/-- Render the positive decimal `D * 10^q` in `'f'` (no-exponent) style.
`D` is assumed already stripped of trailing zeros. -/
def renderDecL (D : ℕ) (q : ℤ) : List Char :=
  if 0 ≤ q then natChars D ++ List.replicate q.toNat '0'
  else
    let fr := (-q).toNat
    let ds := natDigsLE 1100 D
    if fr < ds.length then
      ((ds.drop fr).map digitChar).reverse ++ '.' :: ((ds.take fr).map digitChar).reverse
    else
      '0' :: '.' :: (List.replicate (fr - ds.length) '0' ++ (ds.map digitChar).reverse)

/-- Model of Go `strconv.FormatFloat(v, 'f', -1, 64)` on a finite binary64
value: the shortest decimal, without exponent, that parses back to exactly
`v`; zero renders as `"0"` (`"-0"` for negative zero). -/
def formatFloat (f : F64) : String :=
  if f.m = 0 then (if f.neg then "-0" else "0")
  else
    let c := normF64 f.m f.e
    let s := shortestDec c.1 c.2
    let d := stripTZ 1100 s.1 s.2
    String.mk ((if f.neg then ['-'] else []) ++ renderDecL d.1 d.2)

/-! ## The Form and the FDF encoder

`Form` is a Go `map[string]interface{}`; the map is embedded as an
association list (one entry per key; iteration order of the Go map is an
arbitrary enumeration, which the order-independence theorem quantifies over
via permutations).  A value is a `bool`, a `float64`, or anything else — the
`default` branch of the source's `switch` renders a value as its
`fmt.Sprintf("%v", value)` text, carried here by `GoValue.str`. -/

/-- A Go form value, as discriminated by `createFdfFile`'s type switch. -/
inductive GoValue where
  | str (s : String)
  | bool (b : Bool)
  | float (f : F64)
deriving DecidableEq

/-- The PDF form: a key/value map, embedded as an association list. -/
abbrev Form := List (String × GoValue)

/-- The `valStr` computed by `createFdfFile`'s `switch` for one value. -/
def valStr : GoValue → String
  | .bool b => if b then "Yes" else "Off"
  | .float f => formatFloat f
  | .str s => s

/-- One field entry, from `fmt.Fprintf(w, "<< /T (%s) /V (%s)>>\n", ...)`
(without the trailing newline). -/
def entryLine (k : String) (v : GoValue) : String :=
  "<< /T (" ++ k ++ ") /V (" ++ valStr v ++ ")>>"

/-- `fdfHeader` of the unnamed source file (byte-exact). -/
def fdfHeader : String :=
  "%FDF-1.2\n %,,oe\"\n 1 0 obj\n <<\n /FDF << /Fields ["

/-- `fdfFooter` of the unnamed source file (byte-exact). -/
def fdfFooter : String :=
  "]\n >>\n >>\n endobj\n trailer\n <<\n /Root 1 0 R\n >>\n %%EOF"

/-- `fdfHeader` of `fillpdf.go` (byte-exact). -/
def fdfHeaderLegacy : String :=
  "%FDF-1.2\n%,,oe\"\n1 0 obj\n<<\n/FDF << /Fields ["

/-- `fdfFooter` of `fillpdf.go` (byte-exact). -/
def fdfFooterLegacy : String :=
  "]\n>>\n>>\nendobj\ntrailer\n<<\n/Root 1 0 R\n>>\n%%EOF"

/-- Concatenation of the lines emitted by the writer loop. -/
def concatLines : List String → String
  | [] => ""
  | s :: rest => s ++ concatLines rest

/-- The text written by `createFdfFile`: `Fprintln` of the header, one
`Fprintf` line per field, `Fprintln` of the footer. -/
def fdfContent (header footer : String) (form : Form) : String :=
  header ++ "\n" ++
    concatLines (form.map fun p => entryLine p.1 p.2 ++ "\n") ++
    footer ++ "\n"

/-- `createFdfFile` of the unnamed source file: pure, returns the payload
bytes (no error path). -/
def createFdfFile (form : Form) : String := fdfContent fdfHeader fdfFooter form

/-- The payload text written by `createFdfFile` of `fillpdf.go` (that
variant writes it to a file on disk; the bytes are these). -/
def createFdfContentLegacy (form : Form) : String :=
  fdfContent fdfHeaderLegacy fdfFooterLegacy form

/-! ## Orchestration model

The two fill operations interact with the operating system (path
resolution, `os.Stat`, `exec.LookPath`, temporary files, process
execution, removal).  These interactions are embedded as an abstract
environment `OsEnv` supplying each call's outcome, and each operation
returns its Go result together with the ordered list of observable
filesystem/process effects it performed. -/

/-- A Go `error` value: its text, and whether `os.IsNotExist` holds of it. -/
structure GoError where
  msg : String
  notExist : Bool
deriving DecidableEq

/-- An observable operating-system effect of a fill operation. -/
inductive Effect where
  | createTempDir (name : String)
  | createTempFile (name : String)
  | fsWrite (path : String) (content : String)
  | runCmd (dir : Option String) (prog : String) (args : List String)
      (stdin : Option String)
  | removeAll (path : String)
  | removeFile (path : String)
  | logMsg (msg : String)
deriving DecidableEq

/-- Does an effect create a transient working area (directory or file)? -/
def Effect.isCreate : Effect → Bool
  | .createTempDir _ => true
  | .createTempFile _ => true
  | _ => false

/-- Is an effect a log message? -/
def Effect.isLog : Effect → Bool
  | .logMsg _ => true
  | _ => false

/-- Is an effect a filesystem write (file creation / content write)? -/
def Effect.isWrite : Effect → Bool
  | .createTempDir _ => true
  | .createTempFile _ => true
  | .fsWrite _ _ => true
  | _ => false

/-- The abstract operating system: outcomes of every call the fill
operations can make. -/
structure OsEnv where
  /-- outcome of `filepath.Abs` -/
  absPath : String → Except GoError String
  /-- outcome of `os.Stat` on a path: `none` means success -/
  statErr : String → Option GoError
  /-- outcome of `exec.LookPath "pdftk"` -/
  lookPathPdftk : Except GoError String
  /-- directory name chosen by `ioutil.TempDir("", "fillpdf-")` -/
  tempDir : Except GoError String
  /-- file name chosen by `os.CreateTemp("", "fdf")` -/
  createTemp : Except GoError String
  /-- error creating/writing a file at this path, if any -/
  writeErr : String → Option GoError
  /-- run a process: working dir, program, args, stdin data ↦
  (execution error if any, captured standard output) -/
  run : Option String → String → List String → Option String →
      Option GoError × String
  /-- error from `os.RemoveAll` on this path, if any -/
  removeAllErr : String → Option GoError
  /-- error from `os.Remove` on this path, if any -/
  removeErr : String → Option GoError

/-- The distinct error results of the fill operations: one constructor per
`return nil, …` site in the source; `FillError.message` renders the Go
error text of each. -/
inductive FillError where
  | absFailed (e : GoError)
  | checkExistsFailed (e : GoError)
  | notFound (path : String)
  | notFoundLegacy (path : String)
  | pdftkMissing
  | tempDirFailed (e : GoError)
  | fdfCreateFailed (e : GoError)
  | osError (e : GoError)
  | pdftkFailed (e : GoError)
  | pdftkFailedStream (e : GoError) (out : String)
deriving DecidableEq

/-- The `fmt.Errorf` text of each error result (`notFound` is the unnamed
file's wording, `notFoundLegacy` the `fillpdf.go` wording). -/
def FillError.message : FillError → String
  | .absFailed e => "failed to create the absolute path: " ++ e.msg
  | .checkExistsFailed e => "failed to check if form PDF file exists: " ++ e.msg
  | .notFound p => "form PDF file does not exist: '" ++ p ++ "'"
  | .notFoundLegacy p => "form PDF file does not exists: '" ++ p ++ "'"
  | .pdftkMissing => "pdftk utility is not installed!"
  | .tempDirFailed e => "failed to create temporary directory: " ++ e.msg
  | .fdfCreateFailed e => "failed to create fdf form data file: " ++ e.msg
  | .osError e => e.msg
  | .pdftkFailed e => "pdftk error: " ++ e.msg
  | .pdftkFailedStream e out => "pdftk error: " ++ e.msg ++ "\nOutput: " ++ out

/-- `exists` of the unnamed source file: `os.Stat` success means the path
exists; an `os.IsNotExist` stat error means it does not; any other stat
error is returned as the check's own failure. -/
def existsFn (env : OsEnv) (path : String) : Except GoError Bool :=
  match env.statErr path with
  | none => .ok true
  | some err => if err.notExist then .ok false else .error err

/-- `Fill` of the unnamed source file: resolve the path, check the file
exists, check pdftk, then pipe the encoded FDF to
`pdftk <abs> fill_form - output -` on standard input (no temporary
resources). -/
def Fill (env : OsEnv) (form : Form) (formPDFFile : String) :
    Except FillError String × List Effect :=
  match env.absPath formPDFFile with
  | .error e => (.error (.absFailed e), [])
  | .ok abs =>
    match existsFn env abs with
    | .error e => (.error (.checkExistsFailed e), [])
    | .ok false => (.error (.notFound abs), [])
    | .ok true =>
      match env.lookPathPdftk with
      | .error _ => (.error .pdftkMissing, [])
      | .ok _ =>
        let fdf := createFdfFile form
        let args := [abs, "fill_form", "-", "output", "-"]
        let r := env.run none "pdftk" args (some fdf)
        match r.1 with
        | some e => (.error (.pdftkFailed e), [.runCmd none "pdftk" args (some fdf)])
        | none => (.ok r.2, [.runCmd none "pdftk" args (some fdf)])

/-- `FillFromReader` of the unnamed source file: check pdftk, encode, write
the FDF bytes to a temporary file, run
`pdftk - fill_form <tmp> output -` with the template on standard input,
and remove the temporary file on return (`defer os.Remove(f.Name())`,
whose error the source discards without logging). -/
def FillFromReader (env : OsEnv) (form : Form) (pdfStream : String) :
    Except FillError String × List Effect :=
  match env.lookPathPdftk with
  | .error _ => (.error .pdftkMissing, [])
  | .ok _ =>
    let fdf := createFdfFile form
    match env.createTemp with
    | .error e => (.error (.osError e), [])
    | .ok fname =>
      let body : Except FillError String × List Effect :=
        match env.writeErr fname with
        | some e => (.error (.osError e), [])
        | none =>
          let args := ["-", "fill_form", fname, "output", "-"]
          let r := env.run none "pdftk" args (some pdfStream)
          match r.1 with
          | some e =>
            (.error (.pdftkFailedStream e r.2),
             [.fsWrite fname fdf, .runCmd none "pdftk" args (some pdfStream)])
          | none =>
            (.ok r.2,
             [.fsWrite fname fdf, .runCmd none "pdftk" args (some pdfStream)])
      (body.1, .createTempFile fname :: body.2 ++ [.removeFile fname])

/-- The deferred cleanup of `fillpdf.go`'s `Fill`: `os.RemoveAll` on the
temporary directory, plus a log message when — and only when — the removal
fails (`log.Printf`). -/
def legacyCleanup (env : OsEnv) (tmpDir : String) : List Effect :=
  Effect.removeAll tmpDir ::
    (match env.removeAllErr tmpDir with
     | some e =>
       [Effect.logMsg ("fillpdf: failed to remove temporary directory '" ++
         tmpDir ++ "' again: " ++ e.msg)]
     | none => [])

/-- Modelled from the spec: `runCommandInPath` is defined in the
repository's `utils.go`, which is not among the provided source files.
Per the spec ("The invocation's working directory is set to the transient
directory … Capture the process's standard output in full") it runs the
program with the given working directory and captures standard output. -/
def runCommandInPath (env : OsEnv) (dir prog : String) (args : List String) :
    (Option GoError × String) × Effect :=
  (env.run (some dir) prog args none, .runCmd (some dir) prog args none)

/-- `Fill` of `fillpdf.go`: validate, create a temporary directory, write
`data.fdf` inside it (the path is `filepath.Clean(tmpDir + "/data.fdf")`,
which is the plain concatenation since `ioutil.TempDir` returns a clean
path without a trailing separator), run pdftk with the temporary directory
as working directory, and on every path after creation remove the
directory again, logging — not returning — any removal failure. -/
def FillLegacy (env : OsEnv) (form : Form) (formPDFFile : String) :
    Except FillError String × List Effect :=
  match env.absPath formPDFFile with
  | .error e => (.error (.absFailed e), [])
  | .ok abs =>
    match existsFn env abs with
    | .error e => (.error (.checkExistsFailed e), [])
    | .ok false => (.error (.notFoundLegacy abs), [])
    | .ok true =>
      match env.lookPathPdftk with
      | .error _ => (.error .pdftkMissing, [])
      | .ok _ =>
        match env.tempDir with
        | .error e => (.error (.tempDirFailed e), [])
        | .ok tmpDir =>
          let fdfFile := tmpDir ++ "/data.fdf"
          let body : Except FillError String × List Effect :=
            match env.writeErr fdfFile with
            | some e => (.error (.fdfCreateFailed e), [])
            | none =>
              let args := [abs, "fill_form", fdfFile, "output", "-"]
              let r := runCommandInPath env tmpDir "pdftk" args
              match r.1.1 with
              | some e =>
                (.error (.pdftkFailed e),
                 [.fsWrite fdfFile (createFdfContentLegacy form), r.2])
              | none =>
                (.ok r.1.2,
                 [.fsWrite fdfFile (createFdfContentLegacy form), r.2])
          (body.1, .createTempDir tmpDir :: body.2 ++ legacyCleanup env tmpDir)

/-- Replace only the removal outcomes of an environment (used to state
that fill results do not depend on cleanup failures). -/
def setRemovalOutcomes (env : OsEnv) (g h : String → Option GoError) : OsEnv :=
  ⟨env.absPath, env.statErr, env.lookPathPdftk, env.tempDir, env.createTemp,
   env.writeErr, env.run, g, h⟩

/-- A concrete environment in which every operating-system call succeeds. -/
def envOk : OsEnv :=
  ⟨fun s => .ok ("/abs/" ++ s), fun _ => none, .ok "/usr/bin/pdftk",
   .ok "/tmp/fillpdf-123", .ok "/tmp/fdf456", fun _ => none,
   fun _ _ _ _ => (none, "FILLED"), fun _ => none, fun _ => none⟩

/-- A concrete environment in which the template file does not exist. -/
def envNoFile : OsEnv :=
  ⟨fun s => .ok ("/abs/" ++ s),
   fun _ => some ⟨"no such file or directory", true⟩,
   .ok "/usr/bin/pdftk", .ok "/tmp/fillpdf-123", .ok "/tmp/fdf456",
   fun _ => none, fun _ _ _ _ => (none, "FILLED"), fun _ => none,
   fun _ => none⟩

/-- A concrete environment in which pdftk is absent from the search path. -/
def envNoPdftk : OsEnv :=
  ⟨fun s => .ok ("/abs/" ++ s), fun _ => none,
   .error ⟨"exec: pdftk: executable file not found in PATH", false⟩,
   .ok "/tmp/fillpdf-123", .ok "/tmp/fdf456", fun _ => none,
   fun _ _ _ _ => (none, "FILLED"), fun _ => none, fun _ => none⟩

/-- A concrete environment in which removing transient resources fails. -/
def envRemoveFails : OsEnv :=
  ⟨fun s => .ok ("/abs/" ++ s), fun _ => none, .ok "/usr/bin/pdftk",
   .ok "/tmp/fillpdf-123", .ok "/tmp/fdf456", fun _ => none,
   fun _ _ _ _ => (none, "FILLED"),
   fun _ => some ⟨"directory not empty", false⟩,
   fun _ => some ⟨"permission denied", false⟩⟩

/-! ## Helper lemmas about the encoder -/

theorem concatLines_append (a b : List String) :
    concatLines (a ++ b) = concatLines a ++ concatLines b := by
  induction a with
  | nil => simp [concatLines]
  | cons s rest ih => simp [concatLines, ih, String.append_assoc]

/-- Any field of the form yields its own entry line somewhere in the
emitted payload. -/
theorem fdfContent_mem_split (hd ft : String) (form : Form) (k : String)
    (v : GoValue) (h : (k, v) ∈ form) :
    ∃ pre post, fdfContent hd ft form = pre ++ (entryLine k v ++ "\n") ++ post := by
  obtain ⟨l₁, l₂, hform⟩ := List.append_of_mem h
  subst hform
  refine ⟨hd ++ "\n" ++ concatLines (l₁.map fun p => entryLine p.1 p.2 ++ "\n"),
    concatLines (l₂.map fun p => entryLine p.1 p.2 ++ "\n") ++ (ft ++ "\n"), ?_⟩
  simp [fdfContent, concatLines_append, concatLines, String.append_assoc]

/-- Strings with equal character data are equal. -/
theorem string_eq_of_data {s t : String} (h : s.data = t.data) : s = t :=
  congrArg String.mk h

/-! ## Claims about the FDF encoder -/

/-- C1: the FDF encoder renders a boolean `true` as the literal `Yes` and a
boolean `false` as the literal `Off` in the `/V (...)` slot of that field's
entry line, in both source files' encoders. -/
theorem fdf_bool_yes_off (form : Form) (k : String) (b : Bool)
    (h : (k, GoValue.bool b) ∈ form) :
    valStr (GoValue.bool true) = "Yes" ∧ valStr (GoValue.bool false) = "Off" ∧
    (∃ pre post, createFdfFile form =
      pre ++ ("<< /T (" ++ k ++ ") /V (" ++ (if b then "Yes" else "Off") ++ ")>>" ++ "\n") ++ post) ∧
    (∃ pre post, createFdfContentLegacy form =
      pre ++ ("<< /T (" ++ k ++ ") /V (" ++ (if b then "Yes" else "Off") ++ ")>>" ++ "\n") ++ post) := by
  refine ⟨rfl, rfl, ?_, ?_⟩
  · simpa [entryLine, valStr] using
      fdfContent_mem_split fdfHeader fdfFooter form k (GoValue.bool b) h
  · simpa [entryLine, valStr] using
      fdfContent_mem_split fdfHeaderLegacy fdfFooterLegacy form k (GoValue.bool b) h

theorem fdf_bool_yes_off_witness :
    (∃ pre post, createFdfFile [("Subscribed", GoValue.bool true)] =
      pre ++ ("<< /T (" ++ "Subscribed" ++ ") /V (" ++ (if true then "Yes" else "Off") ++ ")>>" ++ "\n") ++ post) ∧
    (∃ pre post, createFdfFile [("Opt", GoValue.bool false)] =
      pre ++ ("<< /T (" ++ "Opt" ++ ") /V (" ++ (if false then "Yes" else "Off") ++ ")>>" ++ "\n") ++ post) :=
  ⟨(fdf_bool_yes_off [("Subscribed", GoValue.bool true)] "Subscribed" true (by simp)).2.2.1,
   (fdf_bool_yes_off [("Opt", GoValue.bool false)] "Opt" false (by simp)).2.2.1⟩

/-- C4: names and values are copied into the entry verbatim — the entry's
character data is exactly the fixed delimiters around the untouched name
and value characters (so parentheses and backslashes are NOT escaped) —
and an empty field name is encoded as-is as `<< /T () /V (value)>>`
without validation. -/
theorem fdf_verbatim_no_escaping (form : Form) (k : String) (v : GoValue)
    (h : (k, v) ∈ form) :
    (entryLine k v).data =
      ("<< /T (").data ++ k.data ++ (") /V (").data ++ (valStr v).data ++ (")>>").data ∧
    (∃ pre post, createFdfFile form = pre ++ (entryLine k v ++ "\n") ++ post) ∧
    (∀ s, entryLine "" (GoValue.str s) = "<< /T () /V (" ++ s ++ ")>>") := by
  refine ⟨by simp [entryLine, String.data_append], ?_, ?_⟩
  · exact fdfContent_mem_split fdfHeader fdfFooter form k v h
  · intro s
    apply string_eq_of_data
    simp [entryLine, valStr, String.data_append]

theorem fdf_verbatim_no_escaping_witness :
    (entryLine "a(b\\" (GoValue.str "c)d\\e")).data =
      ("<< /T (").data ++ ("a(b\\").data ++ (") /V (").data ++ ("c)d\\e").data ++ (")>>").data ∧
    (∃ pre post, createFdfFile [("a(b\\", GoValue.str "c)d\\e")] =
      pre ++ (entryLine "a(b\\" (GoValue.str "c)d\\e") ++ "\n") ++ post) :=
  ⟨(fdf_verbatim_no_escaping [("a(b\\", GoValue.str "c)d\\e")] "a(b\\"
      (GoValue.str "c)d\\e") (by simp)).1,
   (fdf_verbatim_no_escaping [("a(b\\", GoValue.str "c)d\\e")] "a(b\\"
      (GoValue.str "c)d\\e") (by simp)).2.1⟩

/-- C5: encoding is deterministic up to map iteration order — two
enumerations of the same Form (permutations of each other) produce payloads
built from the same multiset of field-entry lines between the identical
fixed header and footer blocks. -/
theorem fdf_encode_perm_invariant (l₁ l₂ : Form) (h : l₁.Perm l₂) :
    ((l₁.map fun p => entryLine p.1 p.2).Perm (l₂.map fun p => entryLine p.1 p.2)) ∧
    ((l₁.map fun p => entryLine p.1 p.2 ++ "\n").Perm
      (l₂.map fun p => entryLine p.1 p.2 ++ "\n")) ∧
    createFdfFile l₁ = fdfHeader ++ "\n" ++
      concatLines (l₁.map fun p => entryLine p.1 p.2 ++ "\n") ++
      (fdfFooter ++ "\n") ∧
    createFdfFile l₂ = fdfHeader ++ "\n" ++
      concatLines (l₂.map fun p => entryLine p.1 p.2 ++ "\n") ++
      (fdfFooter ++ "\n") := by
  refine ⟨h.map _, h.map _, ?_, ?_⟩ <;>
    simp [createFdfFile, fdfContent, String.append_assoc]

theorem fdf_encode_perm_invariant_witness :
    (([(("A" : String), GoValue.bool true), ("B", GoValue.str "x")].map
        fun p => entryLine p.1 p.2).Perm
      ([(("B" : String), GoValue.str "x"), ("A", GoValue.bool true)].map
        fun p => entryLine p.1 p.2)) :=
  (fdf_encode_perm_invariant
    [("A", GoValue.bool true), ("B", GoValue.str "x")]
    [("B", GoValue.str "x"), ("A", GoValue.bool true)]
    (by decide)).1

/-- C10: the encoder of the unnamed source file is total and cannot fail —
it is a pure function; on the empty Form the payload is exactly the fixed
header block immediately followed by the fixed footer block (no field
entries in between), and the payload is never empty for any Form. -/
theorem fdf_empty_form_total :
    createFdfFile [] = fdfHeader ++ "\n" ++ (fdfFooter ++ "\n") ∧
    ∀ form : Form, createFdfFile form ≠ "" := by
  constructor
  · simp [createFdfFile, fdfContent, concatLines, String.append_assoc]
  · intro form h
    have hd := congrArg String.data h
    simp [createFdfFile, fdfContent, String.data_append] at hd

set_option maxRecDepth 10000 in
/-- C3: the structural envelope — the payload is the fixed header block
(starting with the FDF 1.2 version declaration and opening the `Fields`
array), exactly one `<< /T (name) /V (value)>>` line per map entry, and
the fixed footer block (which references object 1 as Root and ends with
`%%EOF`); concretely, the Form {Name: Alice, Subscribed: true, Age: 30.0}
yields precisely the three expected lines between header and footer. -/
theorem fdf_envelope (form : Form) :
    createFdfFile form = fdfHeader ++ "\n" ++
      concatLines (form.map fun p => entryLine p.1 p.2 ++ "\n") ++
      (fdfFooter ++ "\n") ∧
    (form.map fun p => entryLine p.1 p.2 ++ "\n").length = form.length ∧
    (∃ r, fdfHeader = "%FDF-1.2" ++ r) ∧
    (∃ a b, fdfFooter = a ++ "/Root 1 0 R" ++ b) ∧
    (∃ a, fdfFooter = a ++ "%%EOF") ∧
    createFdfFile
      [("Name", GoValue.str "Alice"), ("Subscribed", GoValue.bool true),
       ("Age", GoValue.float ⟨false, 30, 0⟩)] =
      fdfHeader ++ "\n" ++
        ("<< /T (Name) /V (Alice)>>" ++ "\n" ++
          ("<< /T (Subscribed) /V (Yes)>>" ++ "\n" ++
            ("<< /T (Age) /V (30)>>" ++ "\n"))) ++
        (fdfFooter ++ "\n") := by
  refine ⟨?_, by simp,
    ⟨"\n %,,oe\"\n 1 0 obj\n <<\n /FDF << /Fields [", by decide⟩,
    ⟨"]\n >>\n >>\n endobj\n trailer\n <<\n ", "\n >>\n %%EOF", by decide⟩,
    ⟨"]\n >>\n >>\n endobj\n trailer\n <<\n /Root 1 0 R\n >>\n ", by decide⟩,
    by decide⟩
  simp [createFdfFile, fdfContent, String.append_assoc]

/-! ## Properties of the float-formatting model -/

theorem digitChar_not_special (d : ℕ) :
    digitChar d ≠ 'e' ∧ digitChar d ≠ 'E' ∧ digitChar d ≠ '.' ∧
      digitChar d ≠ '-' := by
  unfold digitChar
  split <;> exact ⟨by decide, by decide, by decide, by decide⟩

theorem digitChar_ne_zero {d : ℕ} (h : d ≠ 0) : digitChar d ≠ '0' := by
  match d with
  | 0 => exact absurd rfl h
  | 1 | 2 | 3 | 4 | 5 | 6 | 7 | 8 => decide
  | n + 9 =>
    have h9 : digitChar (n + 9) = '9' := rfl
    rw [h9]
    decide

theorem natDigsLE_succ (fuel n : ℕ) (hn : n ≠ 0) :
    natDigsLE (fuel + 1) n = n % 10 :: natDigsLE fuel (n / 10) := by
  simp [natDigsLE, hn]

theorem natDigsLE_1100 (n : ℕ) (hn : n ≠ 0) :
    natDigsLE 1100 n = n % 10 :: natDigsLE 1099 (n / 10) := by
  have h : (1100 : ℕ) = 1099 + 1 := by norm_num
  rw [h, natDigsLE_succ _ _ hn]

theorem stripTZ_spec : ∀ (fuel d : ℕ) (q : ℤ), d ≠ 0 → d < 10 ^ fuel →
    (stripTZ fuel d q).1 ≠ 0 ∧ (stripTZ fuel d q).1 % 10 ≠ 0 := by
  intro fuel
  induction fuel with
  | zero =>
    intro d q hd hlt
    simp at hlt
    omega
  | succ fuel ih =>
    intro d q hd hlt
    by_cases h : d ≠ 0 ∧ d % 10 = 0
    · rw [show stripTZ (fuel + 1) d q = stripTZ fuel (d / 10) (q + 1) from by
        simp [stripTZ, h]]
      have hp : (10 : ℕ) ^ (fuel + 1) = 10 ^ fuel * 10 := pow_succ 10 fuel
      exact ih (d / 10) (q + 1) (by omega) (by omega)
    · rw [show stripTZ (fuel + 1) d q = (d, q) from by simp [stripTZ, h]]
      refine ⟨hd, ?_⟩
      rcases Decidable.not_and_iff_or_not.mp h with h' | h'
      · exact absurd hd (by simpa using h')
      · exact h'

theorem normF64_spec (m : ℕ) (e : ℤ) (hm : m ≠ 0) (hm' : m < 2 ^ 53)
    (he : -1074 ≤ e) :
    (normF64 m e).1 ≠ 0 ∧ (normF64 m e).1 < 2 ^ 53 ∧
      -1074 ≤ (normF64 m e).2 ∧ (normF64 m e).2 ≤ e := by
  unfold normF64
  generalize 2200 = fuel
  induction fuel generalizing m e with
  | zero => exact ⟨by simpa [normUpAux] using hm, by simpa [normUpAux] using hm',
      by simpa [normUpAux] using he, by simp [normUpAux]⟩
  | succ fuel ih =>
    by_cases hc : m < 2 ^ 52 ∧ -1074 < e
    · rw [show normUpAux (fuel + 1) m e = normUpAux fuel (2 * m) (e - 1) from by
        simp only [normUpAux]; rw [if_pos hc]]
      have h53 : (2 : ℕ) ^ 53 = 2 * 2 ^ 52 := by norm_num
      obtain ⟨a, b, c, d⟩ := ih (2 * m) (e - 1) (by omega) (by omega) (by omega)
      exact ⟨a, b, c, by omega⟩
    · rw [show normUpAux (fuel + 1) m e = (m, e) from by
        simp only [normUpAux]; rw [if_neg hc]]
      exact ⟨hm, hm', he, le_refl e⟩

theorem bestInLattice_bound {k : ℕ} {q : ℤ} {I : RInterval} {v : Q}
    {c : ℕ × ℤ} (h : bestInLattice k q I v = some c) :
    c.1 ≠ 0 ∧ c.1 < 10 ^ k := by
  unfold bestInLattice at h
  split at h
  case isTrue hle =>
    injection h with h'
    subst h'
    have hpow : (0 : ℤ) < 10 ^ (k - 1) := pow_pos (by norm_num) _
    have h1 : (10 : ℤ) ^ (k - 1) ≤ latticeLo k q I := le_max_right _ _
    have h2 : latticeLo k q I ≤
        max (latticeLo k q I)
          (min (qRoundHE (qDiv v (pow10Z q))) (latticeHi k q I)) :=
      le_max_left _ _
    have h3 : max (latticeLo k q I)
        (min (qRoundHE (qDiv v (pow10Z q))) (latticeHi k q I)) ≤
          latticeHi k q I :=
      max_le hle (min_le_right _ _)
    have h4 : latticeHi k q I ≤ (10 : ℤ) ^ k - 1 := min_le_right _ _
    have hN : ((10 ^ k : ℕ) : ℤ) = (10 : ℤ) ^ k := by push_cast; ring
    simp only []
    omega
  case isFalse => exact absurd h (by simp)

theorem betterCand_or {v : Q} {o₁ o₂ : Option (ℕ × ℤ)} {c : ℕ × ℤ}
    (h : betterCand v o₁ o₂ = some c) : o₁ = some c ∨ o₂ = some c := by
  cases o₁ with
  | none => exact Or.inr (by simpa [betterCand] using h)
  | some c₁ =>
    cases o₂ with
    | none => exact Or.inl (by simpa [betterCand] using h)
    | some c₂ =>
      simp only [betterCand] at h
      split at h
      · exact Or.inr h
      · exact Or.inl h

theorem bestKDigit_bound {k : ℕ} {I : RInterval} {v : Q} {c : ℕ × ℤ}
    (h : bestKDigit k I v = some c) : c.1 ≠ 0 ∧ c.1 < 10 ^ k := by
  simp only [bestKDigit] at h
  rcases betterCand_or h with h' | h'
  · rcases betterCand_or h' with h'' | h''
    · exact bestInLattice_bound h''
    · exact bestInLattice_bound h''
  · exact bestInLattice_bound h'

set_option maxRecDepth 10000 in
theorem exactDec_spec (m : ℕ) (e : ℤ) (hm : m ≠ 0) (hm' : m < 2 ^ 53)
    (he : -1074 ≤ e) (he' : e ≤ 971) :
    (exactDec m e).1 ≠ 0 ∧ (exactDec m e).1 < 10 ^ 1100 := by
  unfold exactDec
  split
  case isTrue h0 =>
    refine ⟨Nat.mul_ne_zero hm (pow_ne_zero _ (by norm_num)), ?_⟩
    have ht : e.toNat ≤ 971 := by omega
    have h1 : (2 : ℕ) ^ e.toNat ≤ 2 ^ 971 :=
      Nat.pow_le_pow_right (by norm_num) ht
    calc m * 2 ^ e.toNat ≤ 2 ^ 53 * 2 ^ 971 := Nat.mul_le_mul hm'.le h1
      _ < 10 ^ 1100 := by decide
  case isFalse h0 =>
    refine ⟨Nat.mul_ne_zero hm (pow_ne_zero _ (by norm_num)), ?_⟩
    have ht : (-e).toNat ≤ 1074 := by omega
    have h1 : (5 : ℕ) ^ (-e).toNat ≤ 5 ^ 1074 :=
      Nat.pow_le_pow_right (by norm_num) ht
    calc m * 5 ^ (-e).toNat ≤ 2 ^ 53 * 5 ^ 1074 := Nat.mul_le_mul hm'.le h1
      _ < 10 ^ 1100 := by decide

set_option maxRecDepth 10000 in
theorem shortestDec_spec (m : ℕ) (e : ℤ) (hm : m ≠ 0) (hm' : m < 2 ^ 53)
    (he : -1074 ≤ e) (he' : e ≤ 971) :
    (shortestDec m e).1 ≠ 0 ∧ (shortestDec m e).1 < 10 ^ 1100 := by
  unfold shortestDec
  cases hfs : (List.range 17).findSome?
      (fun i => bestKDigit (i + 1) (roundInterval m e) (qval m e)) with
  | none => simpa using exactDec_spec m e hm hm' he he'
  | some c =>
    obtain ⟨i, hi, hbest⟩ := List.exists_of_findSome?_eq_some hfs
    have hik : i < 17 := List.mem_range.mp hi
    obtain ⟨h0, hlt⟩ := bestKDigit_bound hbest
    refine ⟨h0, lt_of_lt_of_le hlt ?_⟩
    calc (10 : ℕ) ^ (i + 1) ≤ 10 ^ 17 :=
        Nat.pow_le_pow_right (by norm_num) (by omega)
      _ ≤ 10 ^ 1100 := Nat.pow_le_pow_right (by norm_num) (by norm_num)

theorem getLast?_append_right {α : Type} (l₁ : List α) {l₂ : List α}
    (h : l₂ ≠ []) : (l₁ ++ l₂).getLast? = l₂.getLast? := by
  induction l₁ with
  | nil => rfl
  | cons a t ih =>
    obtain ⟨b, l', hb⟩ := List.exists_cons_of_ne_nil
      (show t ++ l₂ ≠ [] from by simp [h])
    rw [List.cons_append, hb, List.getLast?_cons_cons, ← hb, ih]

theorem getLast?_append_cons_rev {α : Type} (X Z : List α) (c d : α) :
    (X ++ c :: (d :: Z).reverse).getLast? = some d := by
  rw [List.reverse_cons,
    show (c :: (Z.reverse ++ [d])) = (c :: Z.reverse) ++ [d] from rfl,
    ← List.append_assoc, List.getLast?_concat]

theorem getLast?_cons_cons_append_rev {α : Type} (a b : α) (R Z : List α)
    (d : α) : (a :: b :: (R ++ (d :: Z).reverse)).getLast? = some d := by
  rw [show (a :: b :: (R ++ (d :: Z).reverse)) =
      [a, b] ++ (R ++ (d :: Z).reverse) from rfl,
    List.reverse_cons, ← List.append_assoc, ← List.append_assoc,
    List.getLast?_concat]

theorem renderDecL_spec (D : ℕ) (q : ℤ) (hD : D ≠ 0) (hD10 : D % 10 ≠ 0) :
    renderDecL D q ≠ [] ∧
    'e' ∉ renderDecL D q ∧ 'E' ∉ renderDecL D q ∧
    ('.' ∈ renderDecL D q → (renderDecL D q).getLast? ≠ some '0') := by
  have hds := natDigsLE_1100 D hD
  unfold renderDecL
  split
  case isTrue hq =>
    rw [natChars, if_neg hD, hds]
    refine ⟨by simp, ?_, ?_, ?_⟩
    · intro hmem
      simp only [List.mem_append, List.mem_reverse, List.mem_map,
        List.mem_replicate] at hmem
      rcases hmem with ⟨d, _, hd⟩ | ⟨_, hd⟩
      · exact (digitChar_not_special d).1 hd
      · exact absurd hd (by decide)
    · intro hmem
      simp only [List.mem_append, List.mem_reverse, List.mem_map,
        List.mem_replicate] at hmem
      rcases hmem with ⟨d, _, hd⟩ | ⟨_, hd⟩
      · exact (digitChar_not_special d).2.1 hd
      · exact absurd hd (by decide)
    · intro hmem
      exfalso
      simp only [List.mem_append, List.mem_reverse, List.mem_map,
        List.mem_replicate] at hmem
      rcases hmem with ⟨d, _, hd⟩ | ⟨_, hd⟩
      · exact (digitChar_not_special d).2.2.1 hd
      · exact absurd hd (by decide)
  case isFalse hq =>
    have hfr : 1 ≤ (-q).toNat := by omega
    dsimp only
    split
    case isTrue hlen =>
      rw [hds]
      constructor
      · simp
      obtain ⟨fr', hfr'⟩ : ∃ fr', (-q).toNat = fr' + 1 :=
        ⟨(-q).toNat - 1, by omega⟩
      rw [hfr']
      refine ⟨?_, ?_, ?_⟩
      · intro hmem
        simp only [List.mem_append, List.mem_reverse, List.mem_map,
          List.mem_cons] at hmem
        rcases hmem with ⟨d, _, hd⟩ | hd | ⟨d, _, hd⟩
        · exact (digitChar_not_special d).1 hd
        · exact absurd hd (by decide)
        · exact (digitChar_not_special d).1 hd
      · intro hmem
        simp only [List.mem_append, List.mem_reverse, List.mem_map,
          List.mem_cons] at hmem
        rcases hmem with ⟨d, _, hd⟩ | hd | ⟨d, _, hd⟩
        · exact (digitChar_not_special d).2.1 hd
        · exact absurd hd (by decide)
        · exact (digitChar_not_special d).2.1 hd
      · intro _
        rw [List.take_succ_cons, List.map_cons, getLast?_append_cons_rev]
        intro hcontra
        exact digitChar_ne_zero hD10 (by simpa using hcontra)
    case isFalse hlen =>
      rw [hds]
      refine ⟨by simp, ?_, ?_, ?_⟩
      · intro hmem
        simp only [List.mem_cons, List.mem_append, List.mem_reverse,
          List.mem_map, List.mem_replicate] at hmem
        rcases hmem with hd | hd | ⟨_, hd⟩ | ⟨d, _, hd⟩
        · exact absurd hd (by decide)
        · exact absurd hd (by decide)
        · exact absurd hd (by decide)
        · exact (digitChar_not_special d).1 hd
      · intro hmem
        simp only [List.mem_cons, List.mem_append, List.mem_reverse,
          List.mem_map, List.mem_replicate] at hmem
        rcases hmem with hd | hd | ⟨_, hd⟩ | ⟨d, _, hd⟩
        · exact absurd hd (by decide)
        · exact absurd hd (by decide)
        · exact absurd hd (by decide)
        · exact (digitChar_not_special d).2.1 hd
      · intro _
        rw [List.map_cons, getLast?_cons_cons_append_rev]
        intro hcontra
        exact digitChar_ne_zero hD10 (by simpa using hcontra)

theorem formatFloat_clean (f : F64) (hf : f.Wf) :
    'e' ∉ (formatFloat f).data ∧ 'E' ∉ (formatFloat f).data ∧
    ('.' ∈ (formatFloat f).data → (formatFloat f).data.getLast? ≠ some '0') := by
  obtain ⟨hm, he, he'⟩ := hf
  by_cases h0 : f.m = 0
  · cases hn : f.neg <;> simp [formatFloat, h0, hn]
  · obtain ⟨hn0, hn53, hne, hnle⟩ := normF64_spec f.m f.e h0 hm he
    obtain ⟨hs0, hsB⟩ := shortestDec_spec (normF64 f.m f.e).1 (normF64 f.m f.e).2
      hn0 hn53 hne (le_trans hnle he')
    obtain ⟨ht0, ht10⟩ := stripTZ_spec 1100
      (shortestDec (normF64 f.m f.e).1 (normF64 f.m f.e).2).1
      (shortestDec (normF64 f.m f.e).1 (normF64 f.m f.e).2).2 hs0 hsB
    obtain ⟨hr0, hre, hrE, hrdot⟩ := renderDecL_spec
      (stripTZ 1100 (shortestDec (normF64 f.m f.e).1 (normF64 f.m f.e).2).1
        (shortestDec (normF64 f.m f.e).1 (normF64 f.m f.e).2).2).1
      (stripTZ 1100 (shortestDec (normF64 f.m f.e).1 (normF64 f.m f.e).2).1
        (shortestDec (normF64 f.m f.e).1 (normF64 f.m f.e).2).2).2 ht0 ht10
    have hdata : (formatFloat f).data =
        (if f.neg then ['-'] else []) ++
          renderDecL
            (stripTZ 1100 (shortestDec (normF64 f.m f.e).1 (normF64 f.m f.e).2).1
              (shortestDec (normF64 f.m f.e).1 (normF64 f.m f.e).2).2).1
            (stripTZ 1100 (shortestDec (normF64 f.m f.e).1 (normF64 f.m f.e).2).1
              (shortestDec (normF64 f.m f.e).1 (normF64 f.m f.e).2).2).2 := by
      simp [formatFloat, h0]
    rw [hdata]
    have hsign : ∀ ch : Char, ch ∈ (if f.neg then ['-'] else []) → ch = '-' := by
      cases f.neg <;> simp
    refine ⟨?_, ?_, ?_⟩
    · intro hmem
      rcases List.mem_append.mp hmem with hd | hd
      · exact absurd (hsign _ hd) (by decide)
      · exact hre hd
    · intro hmem
      rcases List.mem_append.mp hmem with hd | hd
      · exact absurd (hsign _ hd) (by decide)
      · exact hrE hd
    · intro hmem
      rw [getLast?_append_right _ hr0]
      apply hrdot
      rcases List.mem_append.mp hmem with hd | hd
      · exact absurd (hsign _ hd) (by decide)
      · exact hd

/-- C2: the encoder renders a `float64` value through the shortest
round-trip decimal rule of `strconv.FormatFloat(v, 'f', -1, 64)`: the
rendered text of any finite float contains no exponent letters and no
trailing fractional zero, and 1.0, 1.5 and 30.0 render as "1", "1.5" and
"30" in the field's `/V (...)` slot. -/
theorem fdf_float_minimal_decimal (form : Form) (k : String) (f : F64)
    (h : (k, GoValue.float f) ∈ form) :
    valStr (GoValue.float f) = formatFloat f ∧
    (∃ pre post, createFdfFile form =
      pre ++ (("<< /T (" ++ k ++ ") /V (" ++ formatFloat f ++ ")>>") ++ "\n") ++ post) ∧
    (∀ g : F64, g.Wf →
      'e' ∉ (formatFloat g).data ∧ 'E' ∉ (formatFloat g).data ∧
      ('.' ∈ (formatFloat g).data → (formatFloat g).data.getLast? ≠ some '0')) ∧
    formatFloat ⟨false, 1, 0⟩ = "1" ∧
    formatFloat ⟨false, 3, -1⟩ = "1.5" ∧
    formatFloat ⟨false, 30, 0⟩ = "30" := by
  refine ⟨rfl, ?_, fun g hg => formatFloat_clean g hg,
    by decide, by decide, by decide⟩
  simpa [entryLine, valStr] using
    fdfContent_mem_split fdfHeader fdfFooter form k (GoValue.float f) h

theorem fdf_float_minimal_decimal_witness :
    (∃ pre post, createFdfFile [("Age", GoValue.float ⟨false, 30, 0⟩)] =
      pre ++ (("<< /T (" ++ "Age" ++ ") /V (" ++ formatFloat ⟨false, 30, 0⟩ ++ ")>>") ++ "\n") ++ post) ∧
    ('.' ∈ (formatFloat ⟨false, 3, -1⟩).data →
      (formatFloat ⟨false, 3, -1⟩).data.getLast? ≠ some '0') :=
  ⟨(fdf_float_minimal_decimal [("Age", GoValue.float ⟨false, 30, 0⟩)] "Age"
      ⟨false, 30, 0⟩ (by simp)).2.1,
   ((fdf_float_minimal_decimal [("Age", GoValue.float ⟨false, 30, 0⟩)] "Age"
      ⟨false, 30, 0⟩ (by simp)).2.2.1 ⟨false, 3, -1⟩ (by decide)).2.2⟩

/-! ## Claims about the fill orchestration -/

theorem notFound_msg_ne (p : String) (e : GoError) :
    (FillError.notFound p).message ≠ (FillError.checkExistsFailed e).message := by
  intro h
  have hd := congrArg String.data h
  simp only [FillError.message, String.data_append] at hd
  simp at hd

theorem notFoundLegacy_msg_ne (p : String) (e : GoError) :
    (FillError.notFoundLegacy p).message ≠
      (FillError.checkExistsFailed e).message := by
  intro h
  have hd := congrArg String.data h
  simp only [FillError.message, String.data_append] at hd
  simp at hd

/-- C6: when the resolved template path does not exist (the stat error
satisfies `os.IsNotExist`), both path-based fills return their
template-not-found error and perform no filesystem effects at all; the
not-found error is distinct — as a value and as rendered message — from
the error returned when the existence check itself fails for another
reason (e.g. permission denied). -/
theorem fill_template_not_found (env : OsEnv) (form : Form)
    (path abs : String) (err : GoError) (ha : env.absPath path = .ok abs)
    (hs : env.statErr abs = some err) (hne : err.notExist = true) :
    Fill env form path = (.error (.notFound abs), []) ∧
    FillLegacy env form path = (.error (.notFoundLegacy abs), []) ∧
    (∀ p e, FillError.notFound p ≠ FillError.checkExistsFailed e) ∧
    (∀ p e, (FillError.notFound p).message ≠
      (FillError.checkExistsFailed e).message) ∧
    (∀ p e, (FillError.notFoundLegacy p).message ≠
      (FillError.checkExistsFailed e).message) := by
  refine ⟨?_, ?_, fun p e h => FillError.noConfusion h,
    notFound_msg_ne, notFoundLegacy_msg_ne⟩
  · simp [Fill, ha, existsFn, hs, hne]
  · simp [FillLegacy, ha, existsFn, hs, hne]

theorem fill_template_not_found_witness :
    Fill envNoFile [] "form.pdf" = (.error (.notFound "/abs/form.pdf"), []) ∧
    (FillError.notFound "/abs/form.pdf").message ≠
      (FillError.checkExistsFailed ⟨"permission denied", false⟩).message :=
  ⟨(fill_template_not_found envNoFile [] "form.pdf" "/abs/form.pdf"
      ⟨"no such file or directory", true⟩ rfl rfl rfl).1,
   (fill_template_not_found envNoFile [] "form.pdf" "/abs/form.pdf"
      ⟨"no such file or directory", true⟩ rfl rfl rfl).2.2.2.1 _ _⟩

/-- C7: with pdftk unresolvable on the search path, `FillFromReader`
returns the tool-missing error having performed no effects; both
path-based fills (with template validation passing) return the same
tool-missing error with no effects; and regardless of the validation
outcome, when pdftk resolution fails the effect trace of every variant is
empty — the executable check precedes creation of any transient
directory or file. -/
theorem fill_pdftk_missing (env : OsEnv) (form : Form)
    (stream path abs : String) (e : GoError)
    (hlp : env.lookPathPdftk = .error e) :
    FillFromReader env form stream = (.error .pdftkMissing, []) ∧
    (env.absPath path = .ok abs → env.statErr abs = none →
      Fill env form path = (.error .pdftkMissing, []) ∧
      FillLegacy env form path = (.error .pdftkMissing, [])) ∧
    (Fill env form path).2 = [] ∧
    (FillLegacy env form path).2 = [] ∧
    (FillFromReader env form stream).2 = [] := by
  refine ⟨by simp [FillFromReader, hlp],
    fun ha hs => ⟨by simp [Fill, ha, existsFn, hs, hlp],
      by simp [FillLegacy, ha, existsFn, hs, hlp]⟩, ?_, ?_,
    by simp [FillFromReader, hlp]⟩
  · unfold Fill
    cases habs : env.absPath path with
    | error e' => simp
    | ok abs' =>
      unfold existsFn
      cases hst : env.statErr abs' with
      | none => simp [hst, hlp]
      | some err' => cases hne : err'.notExist <;> simp [hst, hne, hlp]
  · unfold FillLegacy
    cases habs : env.absPath path with
    | error e' => simp
    | ok abs' =>
      unfold existsFn
      cases hst : env.statErr abs' with
      | none => simp [hst, hlp]
      | some err' => cases hne : err'.notExist <;> simp [hst, hne, hlp]

theorem fill_pdftk_missing_witness :
    FillFromReader envNoPdftk [] "PDFBYTES" = (.error .pdftkMissing, []) ∧
    Fill envNoPdftk [] "form.pdf" = (.error .pdftkMissing, []) ∧
    FillLegacy envNoPdftk [] "form.pdf" = (.error .pdftkMissing, []) :=
  ⟨(fill_pdftk_missing envNoPdftk [] "PDFBYTES" "form.pdf" "/abs/form.pdf"
      ⟨"exec: pdftk: executable file not found in PATH", false⟩ rfl).1,
   ((fill_pdftk_missing envNoPdftk [] "PDFBYTES" "form.pdf" "/abs/form.pdf"
      ⟨"exec: pdftk: executable file not found in PATH", false⟩ rfl).2.1
      rfl rfl).1,
   ((fill_pdftk_missing envNoPdftk [] "PDFBYTES" "form.pdf" "/abs/form.pdf"
      ⟨"exec: pdftk: executable file not found in PATH", false⟩ rfl).2.1
      rfl rfl).2⟩

/-- C8: after validation succeeds, `fillpdf.go`'s `Fill` creates the fresh
transient working directory delivered by `ioutil.TempDir` (whose contract
supplies the unique name), persists the encoded FDF to `data.fdf` inside
it, and invokes pdftk with the template path, a `fill_form` directive
naming that FDF file and an `output -` (standard output) directive, with
the process working directory set to the transient directory — the same
trace whether pdftk then succeeds or fails. -/
theorem fillLegacy_run_contract (env : OsEnv) (form : Form)
    (path abs tmpDir p : String) (ha : env.absPath path = .ok abs)
    (hs : env.statErr abs = none) (hlp : env.lookPathPdftk = .ok p)
    (htd : env.tempDir = .ok tmpDir)
    (hw : env.writeErr (tmpDir ++ "/data.fdf") = none)
    (hrm : env.removeAllErr tmpDir = none) :
    (FillLegacy env form path).2 =
      [.createTempDir tmpDir,
       .fsWrite (tmpDir ++ "/data.fdf") (createFdfContentLegacy form),
       .runCmd (some tmpDir) "pdftk"
         [abs, "fill_form", tmpDir ++ "/data.fdf", "output", "-"] none,
       .removeAll tmpDir] := by
  unfold FillLegacy existsFn
  cases hr : (env.run (some tmpDir) "pdftk"
      [abs, "fill_form", tmpDir ++ "/data.fdf", "output", "-"] none).1 <;>
    simp [ha, hs, hlp, htd, hw, legacyCleanup, hrm, runCommandInPath, hr]

theorem fillLegacy_run_contract_witness :
    (FillLegacy envOk [] "form.pdf").2 =
      [.createTempDir "/tmp/fillpdf-123",
       .fsWrite ("/tmp/fillpdf-123" ++ "/data.fdf") (createFdfContentLegacy []),
       .runCmd (some "/tmp/fillpdf-123") "pdftk"
         ["/abs/form.pdf", "fill_form", "/tmp/fillpdf-123" ++ "/data.fdf",
          "output", "-"] none,
       .removeAll "/tmp/fillpdf-123"] :=
  fillLegacy_run_contract envOk [] "form.pdf" "/abs/form.pdf"
    "/tmp/fillpdf-123" "/usr/bin/pdftk" rfl rfl rfl rfl rfl rfl

/-- Shape of the legacy `Fill`'s effect trace: either nothing happened
(a validation short-circuit), or exactly one temporary directory was
created, followed by the working effects and the cleanup block. -/
theorem fillLegacy_dichotomy (env : OsEnv) (form : Form) (path : String) :
    (FillLegacy env form path).2 = [] ∨
    ∃ tmpDir body,
      (body = [] ∨ ∃ a,
        body = [Effect.fsWrite (tmpDir ++ "/data.fdf")
            (createFdfContentLegacy form),
          Effect.runCmd (some tmpDir) "pdftk"
            [a, "fill_form", tmpDir ++ "/data.fdf", "output", "-"] none]) ∧
      (FillLegacy env form path).2 =
        Effect.createTempDir tmpDir :: body ++ legacyCleanup env tmpDir := by
  unfold FillLegacy existsFn
  cases habs : env.absPath path with
  | error e => simp
  | ok abs =>
    cases hst : env.statErr abs with
    | some err => cases hne : err.notExist <;> simp [hst, hne]
    | none =>
      cases hlp : env.lookPathPdftk with
      | error e => simp [hst, hlp]
      | ok p =>
        cases htd : env.tempDir with
        | error e => simp [hst, hlp, htd]
        | ok tmpDir =>
          cases hw : env.writeErr (tmpDir ++ "/data.fdf") with
          | some e =>
            right
            exact ⟨tmpDir, [], Or.inl rfl, by simp [hst, hlp, htd, hw]⟩
          | none =>
            right
            refine ⟨tmpDir,
              [Effect.fsWrite (tmpDir ++ "/data.fdf")
                  (createFdfContentLegacy form),
                Effect.runCmd (some tmpDir) "pdftk"
                  [abs, "fill_form", tmpDir ++ "/data.fdf", "output", "-"]
                  none], Or.inr ⟨abs, rfl⟩, ?_⟩
            cases hr : (env.run (some tmpDir) "pdftk"
                [abs, "fill_form", tmpDir ++ "/data.fdf", "output", "-"]
                none).1 <;>
              simp [hst, hlp, htd, hw, runCommandInPath, hr]

/-- Shape of `FillFromReader`'s effect trace: either nothing happened, or
exactly one temporary file was created, then the working effects, then its
removal (with no logging). -/
theorem fillFromReader_dichotomy (env : OsEnv) (form : Form)
    (stream : String) :
    (FillFromReader env form stream).2 = [] ∨
    ∃ fname body,
      (body = [] ∨
        body = [Effect.fsWrite fname (createFdfFile form),
          Effect.runCmd none "pdftk" ["-", "fill_form", fname, "output", "-"]
            (some stream)]) ∧
      (FillFromReader env form stream).2 =
        Effect.createTempFile fname :: body ++ [Effect.removeFile fname] := by
  unfold FillFromReader
  cases hlp : env.lookPathPdftk with
  | error e => simp
  | ok p =>
    cases hct : env.createTemp with
    | error e => simp [hct]
    | ok fname =>
      cases hw : env.writeErr fname with
      | some e =>
        right
        exact ⟨fname, [], Or.inl rfl, by simp [hct, hw]⟩
      | none =>
        right
        refine ⟨fname,
          [Effect.fsWrite fname (createFdfFile form),
            Effect.runCmd none "pdftk" ["-", "fill_form", fname, "output", "-"]
              (some stream)], Or.inr rfl, ?_⟩
        cases hr : (env.run none "pdftk" ["-", "fill_form", fname, "output", "-"]
            (some stream)).1 <;>
          simp [hct, hw, hr]

/-- The unnamed file's `Fill` never creates a transient directory or file
(it pipes the FDF payload through standard input). -/
theorem fill_trace_no_create (env : OsEnv) (form : Form) (path : String) :
    (Fill env form path).2.countP (·.isCreate) = 0 := by
  unfold Fill existsFn
  cases habs : env.absPath path with
  | error e => simp
  | ok abs =>
    cases hst : env.statErr abs with
    | some err => cases hne : err.notExist <;> simp [hst, hne]
    | none =>
      cases hlp : env.lookPathPdftk with
      | error e => simp [hst, hlp]
      | ok p =>
        cases hr : (env.run none "pdftk" [abs, "fill_form", "-", "output", "-"]
            (some (createFdfFile form))).1 <;>
          simp [hst, hlp, hr, Effect.isCreate]

/-- The operation results of both fill variants are unchanged when the
removal outcomes of the environment are replaced: a cleanup failure is
never surfaced as the result. -/
theorem fill_result_ignores_removal (env : OsEnv)
    (g h : String → Option GoError) (form : Form) (inp : String) :
    (FillLegacy (setRemovalOutcomes env g h) form inp).1 =
      (FillLegacy env form inp).1 ∧
    (FillFromReader (setRemovalOutcomes env g h) form inp).1 =
      (FillFromReader env form inp).1 := by
  constructor
  · unfold FillLegacy existsFn setRemovalOutcomes
    cases habs : env.absPath inp with
    | error e => simp [habs]
    | ok abs =>
      cases hst : env.statErr abs with
      | some err => cases hne : err.notExist <;> simp [habs, hst, hne]
      | none =>
        cases hlp : env.lookPathPdftk with
        | error e => simp [habs, hst, hlp]
        | ok p =>
          cases htd : env.tempDir with
          | error e => simp [habs, hst, hlp, htd]
          | ok tmpDir =>
            cases hw : env.writeErr (tmpDir ++ "/data.fdf") with
            | some e => simp [habs, hst, hlp, htd, hw]
            | none =>
              cases hr : (env.run (some tmpDir) "pdftk"
                  [abs, "fill_form", tmpDir ++ "/data.fdf", "output", "-"]
                  none).1 <;>
                simp [habs, hst, hlp, htd, hw, runCommandInPath, hr]
  · unfold FillFromReader setRemovalOutcomes
    cases hlp : env.lookPathPdftk with
    | error e => simp [hlp]
    | ok p =>
      cases hct : env.createTemp with
      | error e => simp [hlp, hct]
      | ok fname =>
        cases hw : env.writeErr fname with
        | some e => simp [hlp, hct, hw]
        | none =>
          cases hr : (env.run none "pdftk"
              ["-", "fill_form", fname, "output", "-"] (some inp)).1 <;>
            simp [hlp, hct, hw, hr]

/-- C9 counterexample: the claim says a removal failure "is only logged",
but in `FillFromReader` the error of the deferred `os.Remove` is discarded
without logging — with removal failing, the trace contains the removal
attempt and no log message at all. -/
theorem fillFromReader_removal_failure_unlogged :
    envRemoveFails.removeErr "/tmp/fdf456" =
      some ⟨"permission denied", false⟩ ∧
    (FillFromReader envRemoveFails [] "PDF").2 =
      [.createTempFile "/tmp/fdf456",
       .fsWrite "/tmp/fdf456" (createFdfFile []),
       .runCmd none "pdftk" ["-", "fill_form", "/tmp/fdf456", "output", "-"]
         (some "PDF"),
       .removeFile "/tmp/fdf456"] ∧
    (∀ eff ∈ (FillFromReader envRemoveFails [] "PDF").2,
      eff.isLog = false) := by
  refine ⟨rfl, by decide, by decide⟩

set_option maxRecDepth 4000 in
/-- C9 (amended): every fill operation creates at most one transient
working area (the unnamed file's `Fill` creates none); once created, the
area is removed exactly once before returning, on success and failure
paths alike; the removal outcome never influences the operation's result;
a removal failure is logged by the path-based legacy `Fill` but silently
discarded — not logged — by `FillFromReader`. -/
theorem transient_area_lifecycle (env : OsEnv) (form : Form)
    (inp : String) :
    (FillLegacy env form inp).2.countP (·.isCreate) ≤ 1 ∧
    (FillFromReader env form inp).2.countP (·.isCreate) ≤ 1 ∧
    (Fill env form inp).2.countP (·.isCreate) = 0 ∧
    (∀ d, Effect.createTempDir d ∈ (FillLegacy env form inp).2 →
      (FillLegacy env form inp).2.count (Effect.removeAll d) = 1) ∧
    (∀ n, Effect.createTempFile n ∈ (FillFromReader env form inp).2 →
      (FillFromReader env form inp).2.count (Effect.removeFile n) = 1) ∧
    (∀ g h, (FillLegacy (setRemovalOutcomes env g h) form inp).1 =
        (FillLegacy env form inp).1 ∧
      (FillFromReader (setRemovalOutcomes env g h) form inp).1 =
        (FillFromReader env form inp).1) ∧
    (∀ d e, env.removeAllErr d = some e →
      Effect.createTempDir d ∈ (FillLegacy env form inp).2 →
      Effect.logMsg ("fillpdf: failed to remove temporary directory '" ++ d ++
        "' again: " ++ e.msg) ∈ (FillLegacy env form inp).2) := by
  refine ⟨?_, ?_, fill_trace_no_create env form inp, ?_, ?_,
    fun g h => fill_result_ignores_removal env g h form inp, ?_⟩
  · rcases fillLegacy_dichotomy env form inp with htr | ⟨t, body, hbody, htr⟩
    · simp [htr]
    · rcases hbody with rfl | ⟨a, rfl⟩ <;>
        cases hre : env.removeAllErr t <;>
          simp [htr, legacyCleanup, hre, Effect.isCreate]
  · rcases fillFromReader_dichotomy env form inp with htr | ⟨t, body, hbody, htr⟩
    · simp [htr]
    · rcases hbody with rfl | rfl <;> simp [htr, Effect.isCreate]
  · intro d hmem
    rcases fillLegacy_dichotomy env form inp with htr | ⟨t, body, hbody, htr⟩
    · rw [htr] at hmem; simp at hmem
    · rw [htr] at hmem ⊢
      have hd : d = t := by
        rcases hbody with rfl | ⟨a, rfl⟩ <;>
          cases hre : env.removeAllErr t <;>
            simpa [legacyCleanup, hre] using hmem
      subst hd
      rcases hbody with rfl | ⟨a, rfl⟩ <;>
        cases hre : env.removeAllErr d <;>
          simp [legacyCleanup, hre, List.count_cons, List.count_append]
  · intro n hmem
    rcases fillFromReader_dichotomy env form inp with htr | ⟨t, body, hbody, htr⟩
    · rw [htr] at hmem; simp at hmem
    · rw [htr] at hmem ⊢
      have hn : n = t := by
        rcases hbody with rfl | rfl <;> simpa using hmem
      subst hn
      rcases hbody with rfl | rfl <;>
        simp [List.count_cons, List.count_append]
  · intro d e hre hmem
    rcases fillLegacy_dichotomy env form inp with htr | ⟨t, body, hbody, htr⟩
    · rw [htr] at hmem; simp at hmem
    · rw [htr] at hmem ⊢
      have hd : d = t := by
        rcases hbody with rfl | ⟨a, rfl⟩ <;>
          cases hre' : env.removeAllErr t <;>
            simpa [legacyCleanup, hre'] using hmem
      subst hd
      rcases hbody with rfl | ⟨a, rfl⟩ <;> simp [legacyCleanup, hre]

theorem transient_area_lifecycle_witness :
    (FillLegacy envRemoveFails [] "form.pdf").2.countP (·.isCreate) ≤ 1 ∧
    (FillLegacy envRemoveFails [] "form.pdf").2.count
      (Effect.removeAll "/tmp/fillpdf-123") = 1 ∧
    Effect.logMsg ("fillpdf: failed to remove temporary directory '" ++
        "/tmp/fillpdf-123" ++ "' again: " ++ "directory not empty") ∈
      (FillLegacy envRemoveFails [] "form.pdf").2 :=
  ⟨(transient_area_lifecycle envRemoveFails [] "form.pdf").1,
   (transient_area_lifecycle envRemoveFails [] "form.pdf").2.2.2.1
     "/tmp/fillpdf-123" (by decide),
   (transient_area_lifecycle envRemoveFails [] "form.pdf").2.2.2.2.2.2
     "/tmp/fillpdf-123" ⟨"directory not empty", false⟩ rfl (by decide)⟩

end FillPdf
